import Mathlib

/-!
# Verification of the gas-station simulation (`Project.py`, `gui.py`)

A shallow embedding of the concurrency core of the gas-station simulator:
the pump-status registry (a list of status strings scanned with Python's
`str.endswith("Wolny")`), the counting semaphore bounding concurrent pump
holders, the cashier mutex, the vehicle thread body `Vehicle.run`, the
supervisor loop `StationManager.run`, and the GUI's configuration
normalisation in `StationGUI.start_simulation`.

Sequential registry operations are embedded as pure functions on
`List String`; the interleaved execution of vehicle threads is embedded as a
small-step transition relation on a station state, one constructor per
atomic action of the Python code.
-/

namespace GasStation

/-! ## Python string primitives

`str_endswith s suffix` embeds Python's `s.endswith(suffix)`: the character
sequence of `suffix` is a suffix of the character sequence of `s`. -/

/-- Python's `s.endswith(suffix)` on Lean strings, via character lists. -/
def str_endswith (s suffix : String) : Bool :=
  suffix.data.isSuffixOf s.data

theorem str_endswith_iff (s suffix : String) :
    str_endswith s suffix = true ↔ suffix.data <:+ s.data := by
  simp [str_endswith]

/-! ## The three status-string templates of `Project.py`

* initial entries (line 16): `f"D{i+1}: Wolny"`
* a claimed entry (line 74): `f"D{i+1}: Zajęty przez V{self.id}"`
* a released entry (line 89): `f"D{pump_id}: Wolny (zwolniony przez V{self.id})"` -/

/-- `f"D{n}: Wolny"` — the initial status of pump `n` (`pump_status`, line 16). -/
def initialStr (pid : Nat) : String :=
  "D" ++ Nat.repr pid ++ ": Wolny"

/-- `f"D{n}: Zajęty przez V{vid}"` — the status written by the claim scan
(`Vehicle.run`, line 74). -/
def occupiedStr (pid vid : Nat) : String :=
  "D" ++ Nat.repr pid ++ ": Zajęty przez V" ++ Nat.repr vid

/-- `f"D{n}: Wolny (zwolniony przez V{vid})"` — the status written when a
vehicle releases its pump (`Vehicle.run`, line 89). -/
def releasedStr (pid vid : Nat) : String :=
  "D" ++ Nat.repr pid ++ ": Wolny (zwolniony przez V" ++ Nat.repr vid ++ ")"

/-! ### Facts about `Nat.repr`: nonempty, and every character is a digit-like
character produced by `Nat.digitChar`, hence never `'y'` nor `')'`. -/

theorem digitChar_eq_star_of_ge (n : Nat) (h : 16 ≤ n) : Nat.digitChar n = '*' := by
  unfold Nat.digitChar
  rw [if_neg, if_neg, if_neg, if_neg, if_neg, if_neg, if_neg, if_neg,
    if_neg, if_neg, if_neg, if_neg, if_neg, if_neg, if_neg, if_neg]
  all_goals omega

theorem digitChar_ne_y (n : Nat) : Nat.digitChar n ≠ 'y' := by
  rcases Nat.lt_or_ge n 16 with h | h
  · interval_cases n <;> decide
  · rw [digitChar_eq_star_of_ge n h]; decide

theorem digitChar_ne_rparen (n : Nat) : Nat.digitChar n ≠ ')' := by
  rcases Nat.lt_or_ge n 16 with h | h
  · interval_cases n <;> decide
  · rw [digitChar_eq_star_of_ge n h]; decide

theorem toDigitsCore_mem (b : Nat) :
    ∀ (fuel n : Nat) (ds : List Char) (c : Char),
      c ∈ Nat.toDigitsCore b fuel n ds → c ∈ ds ∨ ∃ m, c = Nat.digitChar m := by
  intro fuel
  induction fuel with
  | zero => intro n ds c hc; exact Or.inl hc
  | succ fuel ih =>
    intro n ds c hc
    unfold Nat.toDigitsCore at hc
    by_cases h : n / b = 0
    · simp only [h, if_pos rfl] at hc
      rcases List.mem_cons.mp hc with h1 | h2
      · exact Or.inr ⟨n % b, h1⟩
      · exact Or.inl h2
    · simp only [if_neg h] at hc
      rcases ih (n / b) (Nat.digitChar (n % b) :: ds) c hc with h1 | h2
      · rcases List.mem_cons.mp h1 with h3 | h4
        · exact Or.inr ⟨n % b, h3⟩
        · exact Or.inl h4
      · exact Or.inr h2

theorem toDigits_mem (b n : Nat) (c : Char) (hc : c ∈ Nat.toDigits b n) :
    ∃ m, c = Nat.digitChar m := by
  rcases toDigitsCore_mem b (n + 1) n [] c hc with h | h
  · cases h
  · exact h

theorem toDigitsCore_ne_nil (b : Nat) :
    ∀ (fuel n : Nat) (ds : List Char), fuel ≠ 0 ∨ ds ≠ [] →
      Nat.toDigitsCore b fuel n ds ≠ [] := by
  intro fuel
  induction fuel with
  | zero =>
    intro n ds h
    rcases h with h | h
    · exact absurd rfl h
    · simpa [Nat.toDigitsCore] using h
  | succ fuel ih =>
    intro n ds _
    unfold Nat.toDigitsCore
    by_cases h : n / b = 0
    · simp [h]
    · simp only [if_neg h]
      exact ih (n / b) (Nat.digitChar (n % b) :: ds) (Or.inr (by simp))

theorem repr_data_ne_nil (n : Nat) : (Nat.repr n).data ≠ [] := by
  show Nat.toDigits 10 n ≠ []
  exact toDigitsCore_ne_nil 10 (n + 1) n [] (Or.inl (Nat.succ_ne_zero n))

theorem repr_getLast_mem (n : Nat) (c : Char)
    (h : (Nat.repr n).data.getLast? = some c) : ∃ m, c = Nat.digitChar m :=
  toDigits_mem 10 n c (List.mem_of_getLast?_eq_some h)

/-! ### The Free test (`endswith("Wolny")`) on the three templates -/

theorem not_endswith_wolny_of_getLast (s : String) (c : Char)
    (hc : s.data.getLast? = some c) (hne : c ≠ 'y') :
    str_endswith s "Wolny" = false := by
  by_contra h
  rw [Bool.not_eq_false, str_endswith_iff] at h
  obtain ⟨t, ht⟩ := h
  have hy : s.data.getLast? = some 'y' := by
    rw [← ht, List.getLast?_append]
    rw [show "Wolny".data.getLast? = some 'y' from by decide]
    rfl
  rw [hc] at hy
  exact hne (Option.some.inj hy)

theorem releasedStr_getLast (p v : Nat) : (releasedStr p v).data.getLast? = some ')' := by
  show (("D" ++ Nat.repr p ++ ": Wolny (zwolniony przez V" ++ Nat.repr v) ++ ")").data.getLast?
    = some ')'
  rw [String.data_append, List.getLast?_append]
  rw [show ")".data.getLast? = some ')' from by decide]
  rfl

theorem occupiedStr_getLast (p v : Nat) :
    ∃ m, (occupiedStr p v).data.getLast? = some (Nat.digitChar m) := by
  obtain ⟨c, hc⟩ : ∃ c, (Nat.repr v).data.getLast? = some c := by
    cases h : (Nat.repr v).data.getLast? with
    | none => exact absurd (List.getLast?_eq_none_iff.mp h) (repr_data_ne_nil v)
    | some c => exact ⟨c, rfl⟩
  obtain ⟨m, hm⟩ := repr_getLast_mem v c hc
  refine ⟨m, ?_⟩
  show (("D" ++ Nat.repr p ++ ": Zajęty przez V") ++ Nat.repr v).data.getLast?
    = some (Nat.digitChar m)
  rw [String.data_append, List.getLast?_append, hc, hm]
  rfl

/-- The initial `f"D{n}: Wolny"` entry passes the Free test. -/
theorem endswith_initialStr (p : Nat) : str_endswith (initialStr p) "Wolny" = true := by
  rw [str_endswith_iff]
  show "Wolny".data <:+ (("D" ++ Nat.repr p) ++ ": Wolny").data
  rw [String.data_append]
  exact List.IsSuffix.trans (show "Wolny".data <:+ ": Wolny".data from by decide)
    (List.suffix_append _ _)

/-- A released `f"D{n}: Wolny (zwolniony przez V{vid})"` entry fails the Free test:
the string ends in `')'`, not in `"Wolny"`. -/
theorem endswith_releasedStr (p v : Nat) :
    str_endswith (releasedStr p v) "Wolny" = false :=
  not_endswith_wolny_of_getLast _ ')' (releasedStr_getLast p v) (by decide)

/-- An occupied `f"D{n}: Zajęty przez V{vid}"` entry fails the Free test:
the string ends in a digit of the vehicle id. -/
theorem endswith_occupiedStr (p v : Nat) :
    str_endswith (occupiedStr p v) "Wolny" = false := by
  obtain ⟨m, hm⟩ := occupiedStr_getLast p v
  exact not_endswith_wolny_of_getLast _ _ hm (digitChar_ne_y m)

/-- A released entry never shows `Occupied`: it differs from every occupied-status
string (last characters `')'` vs a digit). -/
theorem releasedStr_ne_occupiedStr (p v q w : Nat) : releasedStr p v ≠ occupiedStr q w := by
  intro h
  obtain ⟨m, hm⟩ := occupiedStr_getLast q w
  have := releasedStr_getLast p v
  rw [h, hm] at this
  exact digitChar_ne_rparen m (Option.some.inj this)

/-! ## The status registry (`pump_status`) and its operations

`pump_status = [f"D{i+1}: Wolny" for i in range(NUM_PUMPS)]` (line 16); the
claim scan of `Vehicle.run` lines 70–76; the release write of line 89. -/

/-- `pump_status` as initialised on line 16 for `n` pumps. -/
def pumpStatusInit (n : Nat) : List String :=
  (List.range n).map (fun i => initialStr (i + 1))

/-- The claim scan of `Vehicle.run` lines 70–76, with `k` the absolute index of
the current list head: find the first entry ending in `"Wolny"`, overwrite it
with `f"D{i+1}: Zajęty przez V{vid}"`, and return `pump_id = i + 1` with the
updated registry; `none` plays the role of `pump_id = -1`. -/
def claimFreeSlotAux (vid : Nat) : Nat → List String → Option (Nat × List String)
  | _, [] => none
  | k, s :: rest =>
    if str_endswith s "Wolny" then
      some (k + 1, occupiedStr (k + 1) vid :: rest)
    else
      match claimFreeSlotAux vid (k + 1) rest with
      | some (pid, rest') => some (pid, s :: rest')
      | none => none

/-- `StatusRegistry.claimFreeSlot(vehicleId)`: the full scan starting at index 0. -/
def claimFreeSlot (vid : Nat) (ps : List String) : Option (Nat × List String) :=
  claimFreeSlotAux vid 0 ps

/-- `StatusRegistry.releaseSlot`: the write
`pump_status[pump_id - 1] = f"D{pump_id}: Wolny (zwolniony przez V{self.id})"`
of `Vehicle.run` lines 88–89. -/
def releaseSlot (vid pid : Nat) (ps : List String) : List String :=
  ps.set (pid - 1) (releasedStr pid vid)

/-! ### Characterisation of the claim scan -/

theorem claimFreeSlotAux_none_iff (vid : Nat) :
    ∀ (k : Nat) (ps : List String),
      claimFreeSlotAux vid k ps = none ↔ ∀ s ∈ ps, str_endswith s "Wolny" = false := by
  intro k ps
  induction ps generalizing k with
  | nil => simp [claimFreeSlotAux]
  | cons s rest ih =>
    by_cases hs : str_endswith s "Wolny" = true
    · simp [claimFreeSlotAux, hs]
    · rw [Bool.not_eq_true] at hs
      constructor
      · intro h t ht
        rcases List.mem_cons.mp ht with rfl | ht'
        · exact hs
        · refine (ih (k + 1)).mp ?_ t ht'
          by_contra hn
          rcases Option.ne_none_iff_exists'.mp hn with ⟨⟨pid, rest'⟩, hx⟩
          simp [claimFreeSlotAux, hs, hx] at h
      · intro h
        have hrest : claimFreeSlotAux vid (k + 1) rest = none :=
          (ih (k + 1)).mpr (fun t ht => h t (List.mem_cons_of_mem s ht))
        simp [claimFreeSlotAux, hs, hrest]

theorem claimFreeSlotAux_some (vid : Nat) :
    ∀ (k : Nat) (ps : List String) (pid : Nat) (ps' : List String),
      claimFreeSlotAux vid k ps = some (pid, ps') →
      ∃ j, j < ps.length ∧ pid = k + j + 1 ∧
        (∀ i, i < j → ∀ s, ps.get? i = some s → str_endswith s "Wolny" = false) ∧
        (∀ s, ps.get? j = some s → str_endswith s "Wolny" = true) ∧
        ps' = ps.set j (occupiedStr (k + j + 1) vid) := by
  intro k ps
  induction ps generalizing k with
  | nil => intro pid ps' h; simp [claimFreeSlotAux] at h
  | cons s rest ih =>
    intro pid ps' h
    by_cases hs : str_endswith s "Wolny" = true
    · unfold claimFreeSlotAux at h
      rw [if_pos hs] at h
      have h' : (k + 1, occupiedStr (k + 1) vid :: rest) = (pid, ps') := Option.some.inj h
      have hpid : k + 1 = pid := congrArg Prod.fst h'
      have hps : occupiedStr (k + 1) vid :: rest = ps' := congrArg Prod.snd h'
      refine ⟨0, Nat.succ_pos _, by omega, by omega, ?_, ?_⟩
      · intro t ht
        simp only [List.get?_cons_zero] at ht
        rw [← Option.some.inj ht]; exact hs
      · rw [← hps]
        have : k + 0 + 1 = k + 1 := by omega
        simp [this]
    · rw [Bool.not_eq_true] at hs
      unfold claimFreeSlotAux at h
      rw [if_neg (by rw [hs]; simp)] at h
      cases hrest : claimFreeSlotAux vid (k + 1) rest with
      | none => rw [hrest] at h; exact absurd h (by simp)
      | some pr =>
        obtain ⟨pid0, rest'⟩ := pr
        rw [hrest] at h
        simp only [] at h
        have h' : (pid0, s :: rest') = (pid, ps') := Option.some.inj h
        have hpid0 : pid0 = pid := congrArg Prod.fst h'
        have hps : s :: rest' = ps' := congrArg Prod.snd h'
        subst hpid0
        obtain ⟨j, hj, hpid, hbefore, hat, hset⟩ := ih (k + 1) pid0 rest' hrest
        refine ⟨j + 1, by simpa using Nat.succ_lt_succ hj, by omega, ?_, ?_, ?_⟩
        · intro i hi t ht
          cases i with
          | zero =>
            simp only [List.get?_cons_zero] at ht
            rw [← Option.some.inj ht]; exact hs
          | succ i' =>
            exact hbefore i' (by omega) t (by simpa using ht)
        · intro t ht
          exact hat t (by simpa using ht)
        · rw [← hps, List.set_cons_succ,
            show k + (j + 1) + 1 = k + 1 + j + 1 from by omega, ← hset]

/-- Consequences of a successful claim used by the invariant proofs. -/
theorem claimFreeSlot_some (vid : Nat) (ps : List String) (pid : Nat) (ps' : List String)
    (h : claimFreeSlot vid ps = some (pid, ps')) :
    1 ≤ pid ∧ pid ≤ ps.length ∧ ps' = ps.set (pid - 1) (occupiedStr pid vid) ∧
      ∀ s, ps[pid - 1]? = some s → str_endswith s "Wolny" = true := by
  obtain ⟨j, hj, hpid, _, hat, hset⟩ := claimFreeSlotAux_some vid 0 ps pid ps' h
  have hj1 : pid - 1 = j := by omega
  refine ⟨by omega, by omega, ?_, ?_⟩
  · rw [hj1, hset, show 0 + j + 1 = j + 1 from by omega, show pid = j + 1 from by omega]
  · intro s hs
    rw [hj1] at hs
    exact hat s (by rw [List.get?_eq_getElem?]; exact hs)

/-! ## GUI start control (`StationGUI.start_simulation`, gui.py lines 107–127) -/

/-- Outcome of pressing Start: either a run is started with the given
parameters, or the configuration is rejected. The source has no rejection
path; the constructor `rejected` exists only to express the spec's claimed
`ConfigurationError` behaviour. -/
inductive StartResult where
  | started (nPumps maxVehicles : Nat)
  | rejected
deriving DecidableEq, Repr

/-- `StationGUI.start_simulation`: reads the two integer entry fields, clamps
both with `n_pumps = max(1, ...)` and `max_veh = max(1, ...)` (lines 111–112),
re-initialises the module globals and starts a `StationManager` with those
values (lines 115–127). No input is ever rejected. -/
def start_simulation (pumps maxVehicles : Int) : StartResult :=
  .started (max 1 pumps).toNat (max 1 maxVehicles).toNat

/-! ## The supervisor loop (`StationManager.run`, lines 111–134) -/

/-- The spawning loop of `StationManager.run` (lines 117–123): while
`VEHICLE_COUNT < self.max_vehicles and self.running`, increment the counter
and spawn a vehicle whose id is the new counter value. `running j` is the
value of the `self.running` flag as read by the loop check when the counter
equals `j` (the counter is the loop's only state and each iteration increments
it exactly once). The returned list is the ids of the spawned vehicles in
spawn order. -/
def spawnLoop (maxVehicles : Nat) (running : Nat → Bool) (count : Nat) : List Nat :=
  if h : count < maxVehicles ∧ running count = true then
    (count + 1) :: spawnLoop maxVehicles running (count + 1)
  else []
termination_by maxVehicles - count
decreasing_by omega

/-- Ids assigned over a whole run: the loop starts with `VEHICLE_COUNT = 0`. -/
def spawnIds (maxVehicles : Nat) (running : Nat → Bool) : List Nat :=
  spawnLoop maxVehicles running 0

/-- Observable actions of `StationManager.run` in program order. -/
inductive MEvent where
  | spawn (id : Nat)
  | statusDisplay
  | stopLog
  | joined (id : Nat)
  | completeLog
deriving DecidableEq, Repr

/-- The action sequence of `StationManager.run` (lines 111–134): each loop
iteration spawns a vehicle and displays the station status; on loop exit, the
stopping banner is printed, every spawned vehicle thread is joined in spawn
order, and only then is the completion banner printed. -/
def managerEvents (maxVehicles : Nat) (running : Nat → Bool) : List MEvent :=
  ((spawnIds maxVehicles running).map
      (fun id => [MEvent.spawn id, MEvent.statusDisplay])).flatten
    ++ [MEvent.stopLog]
    ++ (spawnIds maxVehicles running).map MEvent.joined
    ++ [MEvent.completeLog]

theorem spawnLoop_unfold (maxVehicles : Nat) (running : Nat → Bool) (count : Nat) :
    spawnLoop maxVehicles running count =
      if count < maxVehicles ∧ running count = true then
        (count + 1) :: spawnLoop maxVehicles running (count + 1)
      else [] := by
  rw [spawnLoop.eq_def]
  split <;> rfl

theorem spawnLoop_range' (maxVehicles : Nat) (running : Nat → Bool) :
    ∀ (fuel count : Nat), maxVehicles - count ≤ fuel →
      ∃ m, m ≤ maxVehicles - count ∧
        spawnLoop maxVehicles running count = List.range' (count + 1) m := by
  intro fuel
  induction fuel with
  | zero =>
    intro count hc
    refine ⟨0, by omega, ?_⟩
    rw [spawnLoop_unfold, if_neg (by rintro ⟨h1, -⟩; omega)]
    rfl
  | succ fuel ih =>
    intro count hc
    by_cases h : count < maxVehicles ∧ running count = true
    · obtain ⟨m, hm, heq⟩ := ih (count + 1) (by omega)
      refine ⟨m + 1, by omega, ?_⟩
      rw [spawnLoop_unfold, if_pos h, heq, List.range'_succ]
    · refine ⟨0, by omega, ?_⟩
      rw [spawnLoop_unfold, if_neg h]
      rfl

/-- With a stop request observed from iteration `T` on, the loop spawns exactly
`min T maxVehicles` vehicles. -/
theorem spawnLoop_stopAt (maxVehicles T : Nat) (running : Nat → Bool)
    (hT : ∀ j, running j = decide (j < T)) :
    ∀ (fuel count : Nat), maxVehicles - count ≤ fuel →
      spawnLoop maxVehicles running count
        = List.range' (count + 1) (min T maxVehicles - count) := by
  intro fuel
  induction fuel with
  | zero =>
    intro count hc
    rw [spawnLoop_unfold, if_neg (by rintro ⟨h1, -⟩; omega),
      show min T maxVehicles - count = 0 from by omega]
    rfl
  | succ fuel ih =>
    intro count hc
    by_cases h : count < maxVehicles ∧ running count = true
    · have hcT : count < T := by
        have := h.2
        rw [hT count] at this
        exact of_decide_eq_true this
      have hmv : count < maxVehicles := h.1
      rw [spawnLoop_unfold, if_pos h, ih (count + 1) (by omega),
        show min T maxVehicles - count = (min T maxVehicles - (count + 1)) + 1 from by omega,
        List.range'_succ]
    · have hstop : ¬(count < maxVehicles) ∨ ¬(count < T) := by
        by_contra hcon
        push_neg at hcon
        exact h ⟨hcon.1, by rw [hT count]; exact decide_eq_true hcon.2⟩
      rw [spawnLoop_unfold, if_neg h, show min T maxVehicles - count = 0 from by omega]
      rfl

/-! ## Interleaved execution of vehicle threads

`Vehicle.run` (lines 63–99) as a small-step transition system: one thread per
vehicle, a counting semaphore `PUMPS_SEMAPHORE`, the cashier mutex
`CASHIER_LOCK` with the `CASHIER_BUSY` flag, the shared `pump_status` list and
the serialized console log. Thread `i` is the vehicle with id `i + 1`. -/

/-- The lifecycle events emitted through `safe_print`, carrying their data
(the exact text is presentation detail). -/
inductive LogEvent where
  | arrive (vid : Nat)
  | tankStart (vid pid : Nat)
  | tankDone (vid : Nat)
  | waitCashier (vid : Nat)
  | payStart (vid : Nat)
  | payDone (vid : Nat)
  | depart (vid : Nat)
  | claimError (vid : Nat)
deriving DecidableEq, Repr

/-- Program counter of one vehicle thread through `Vehicle.run`. -/
inductive PC where
  | notStarted
  | arrived
  | claiming
  | fueling (pid : Nat)
  | tanked (pid : Nat)
  | regReleased (pid : Nat)
  | awaitingCashier (pid : Nat)
  | lockedCashier (pid : Nat)
  | paying (pid : Nat)
  | payDone (pid : Nat)
  | departed (pid : Nat)
  | noPump
  | errDone
deriving DecidableEq, Repr

/-- The shared state of a run: semaphore counter, cashier lock and busy flag,
the `pump_status` list, the program counter of every vehicle thread, and the
console log. -/
structure StationState where
  sem : Nat
  cashierLocked : Bool
  cashierBusy : Bool
  ps : List String
  threads : List PC
  log : List LogEvent
deriving DecidableEq, Repr

/-- One atomic action of thread `i`, following `Vehicle.run` line by line.
The claim scan is taken as one atomic step: in the source each
check-and-write of a single entry is guarded by `PRINT_LOCK`, so no two
threads can claim the same entry, and an entry that fails the test never
passes it later (a claimed or released entry never ends in `"Wolny"`), so
interleaving the per-entry critical sections adds no outcomes. -/
inductive Step : Nat → StationState → StationState → Prop where
  | start (s : StationState) (i : Nat)
      (h : s.threads[i]? = some .notStarted) :
      Step i s { s with threads := s.threads.set i .arrived,
                        log := s.log ++ [.arrive (i + 1)] }
  | acquire (s : StationState) (i : Nat)
      (h : s.threads[i]? = some .arrived) (hsem : 0 < s.sem) :
      Step i s { s with sem := s.sem - 1, threads := s.threads.set i .claiming }
  | claimSome (s : StationState) (i pid : Nat) (ps' : List String)
      (h : s.threads[i]? = some .claiming)
      (hc : claimFreeSlot (i + 1) s.ps = some (pid, ps')) :
      Step i s { s with ps := ps', threads := s.threads.set i (.fueling pid),
                        log := s.log ++ [.tankStart (i + 1) pid] }
  | claimNone (s : StationState) (i : Nat)
      (h : s.threads[i]? = some .claiming)
      (hc : claimFreeSlot (i + 1) s.ps = none) :
      Step i s { s with threads := s.threads.set i .noPump,
                        log := s.log ++ [.claimError (i + 1)] }
  | finishTank (s : StationState) (i pid : Nat)
      (h : s.threads[i]? = some (.fueling pid)) :
      Step i s { s with threads := s.threads.set i (.tanked pid),
                        log := s.log ++ [.tankDone (i + 1)] }
  | releaseRegistry (s : StationState) (i pid : Nat)
      (h : s.threads[i]? = some (.tanked pid)) :
      Step i s { s with ps := releaseSlot (i + 1) pid s.ps,
                        threads := s.threads.set i (.regReleased pid) }
  | releaseSem (s : StationState) (i pid : Nat)
      (h : s.threads[i]? = some (.regReleased pid)) :
      Step i s { s with sem := s.sem + 1,
                        threads := s.threads.set i (.awaitingCashier pid),
                        log := s.log ++ [.waitCashier (i + 1)] }
  | lockCashier (s : StationState) (i pid : Nat)
      (h : s.threads[i]? = some (.awaitingCashier pid))
      (hl : s.cashierLocked = false) :
      Step i s { s with cashierLocked := true,
                        threads := s.threads.set i (.lockedCashier pid) }
  | setBusy (s : StationState) (i pid : Nat)
      (h : s.threads[i]? = some (.lockedCashier pid)) :
      Step i s { s with cashierBusy := true,
                        threads := s.threads.set i (.paying pid),
                        log := s.log ++ [.payStart (i + 1)] }
  | clearBusy (s : StationState) (i pid : Nat)
      (h : s.threads[i]? = some (.paying pid)) :
      Step i s { s with cashierBusy := false,
                        threads := s.threads.set i (.payDone pid),
                        log := s.log ++ [.payDone (i + 1)] }
  | unlockCashier (s : StationState) (i pid : Nat)
      (h : s.threads[i]? = some (.payDone pid)) :
      Step i s { s with cashierLocked := false,
                        threads := s.threads.set i (.departed pid),
                        log := s.log ++ [.depart (i + 1)] }
  | errReleaseSem (s : StationState) (i : Nat)
      (h : s.threads[i]? = some .noPump) :
      Step i s { s with sem := s.sem + 1, threads := s.threads.set i .errDone }

/-- Some thread takes a step. -/
def StepAny (s s' : StationState) : Prop := ∃ i, Step i s s'

/-- The initial state of a run with `n` pumps and `k` vehicles: semaphore at
capacity `n`, cashier free, all registry entries `f"D{i+1}: Wolny"`, no thread
started. -/
def initState (n k : Nat) : StationState :=
  { sem := n, cashierLocked := false, cashierBusy := false,
    ps := pumpStatusInit n, threads := List.replicate k .notStarted, log := [] }

/-- States reachable in a run with `n` pumps and `k` vehicles. -/
def Reachable (n k : Nat) (s : StationState) : Prop :=
  Relation.ReflTransGen StepAny (initState n k) s

/-! ### Thread-status observers -/

/-- Threads holding a semaphore slot: from a successful `acquire()` until the
matching `release()` on either exit path. -/
def holdsSem : PC → Bool
  | .claiming | .fueling _ | .tanked _ | .regReleased _ | .noPump => true
  | _ => false

/-- Threads inside the `with CASHIER_LOCK` critical section. -/
def holdsCashier : PC → Bool
  | .lockedCashier _ | .paying _ | .payDone _ => true
  | _ => false

/-- The Fueling state: `tank()` in progress. -/
def isFueling : PC → Bool
  | .fueling _ => true
  | _ => false

/-- The Paying state: inside the critical section with `CASHIER_BUSY` set. -/
def isPaying : PC → Bool
  | .paying _ => true
  | _ => false

/-- The pump index a thread is associated with, from claim to departure. -/
def pidOf : PC → Option Nat
  | .fueling p | .tanked p | .regReleased p | .awaitingCashier p
  | .lockedCashier p | .paying p | .payDone p | .departed p => some p
  | _ => none

/-- Phases in which the thread's claimed entry must read `occupiedStr`. -/
def occupiedPid : PC → Option Nat
  | .fueling p | .tanked p => some p
  | _ => none

/-- Phases in which the thread's claimed entry must read `releasedStr`,
i.e. from the registry release on. -/
def releasedPid : PC → Option Nat
  | .regReleased p | .awaitingCashier p | .lockedCashier p | .paying p
  | .payDone p | .departed p => some p
  | _ => none

theorem pidOf_cases (pc : PC) (p : Nat) (h : pidOf pc = some p) :
    occupiedPid pc = some p ∨ releasedPid pc = some p := by
  cases pc <;> simp_all [pidOf, occupiedPid, releasedPid]

/-- Threads past the semaphore release of the success path. -/
theorem releasedPid_of_holdsSem_false (pc : PC) (p : Nat) (h : pidOf pc = some p)
    (hs : holdsSem pc = false) : releasedPid pc = some p := by
  cases pc <;> simp_all [pidOf, holdsSem, releasedPid]

/-! ### The global inductive invariant -/

/-- The coupled invariant of a run with `n` pumps: registry length, semaphore
accounting, cashier-lock accounting, the registry contents tied to each
thread's phase, and distinctness of claimed pump indices. -/
structure StationInv (n : Nat) (s : StationState) : Prop where
  psLen : s.ps.length = n
  semCount : s.sem + s.threads.countP holdsSem = n
  lockCount : s.threads.countP holdsCashier = (if s.cashierLocked then 1 else 0)
  occupied : ∀ (i : Nat) (pc : PC) (p : Nat), s.threads[i]? = some pc →
    occupiedPid pc = some p →
    1 ≤ p ∧ p ≤ n ∧ s.ps[p - 1]? = some (occupiedStr p (i + 1))
  released : ∀ (i : Nat) (pc : PC) (p : Nat), s.threads[i]? = some pc →
    releasedPid pc = some p →
    1 ≤ p ∧ p ≤ n ∧ s.ps[p - 1]? = some (releasedStr p (i + 1))
  distinct : ∀ (i j : Nat) (pci pcj : PC) (p : Nat), i ≠ j → s.threads[i]? = some pci →
    s.threads[j]? = some pcj → pidOf pci = some p → pidOf pcj = some p → False

theorem countP_set_add {α : Type} (p : α → Bool) :
    ∀ (l : List α) (i : Nat) (x a : α), l[i]? = some x →
      (l.set i a).countP p + (if p x then 1 else 0)
        = l.countP p + (if p a then 1 else 0) := by
  intro l
  induction l with
  | nil => intro i x a h; simp at h
  | cons b t ih =>
    intro i x a h
    cases i with
    | zero =>
      simp only [List.getElem?_cons_zero] at h
      obtain rfl : b = x := Option.some.inj h
      simp only [List.set_cons_zero, List.countP_cons]
      omega
    | succ i' =>
      simp only [List.getElem?_cons_succ] at h
      have := ih i' x a h
      simp only [List.set_cons_succ, List.countP_cons]
      omega

theorem StationInv_init (n k : Nat) : StationInv n (initState n k) := by
  have hrep : ∀ (i : Nat) (pc : PC),
      (List.replicate k PC.notStarted)[i]? = some pc → pc = PC.notStarted := by
    intro i pc h
    rw [List.getElem?_replicate] at h
    split at h
    · exact (Option.some.inj h).symm
    · exact absurd h (by simp)
  refine ⟨?_, ?_, ?_, ?_, ?_, ?_⟩
  · simp [initState, pumpStatusInit]
  · have hz : (List.replicate k PC.notStarted).countP holdsSem = 0 := by
      rw [List.countP_eq_zero]
      intro a ha
      rw [List.eq_of_mem_replicate ha]
      decide
    simp [initState, hz]
  · have hz : (List.replicate k PC.notStarted).countP holdsCashier = 0 := by
      rw [List.countP_eq_zero]
      intro a ha
      rw [List.eq_of_mem_replicate ha]
      decide
    simp [initState, hz]
  · intro i pc p hi hp
    rw [hrep i pc hi] at hp
    simp [occupiedPid] at hp
  · intro i pc p hi hp
    rw [hrep i pc hi] at hp
    simp [releasedPid] at hp
  · intro i j pci pcj p hij hi hj hpi hpj
    rw [hrep i pci hi] at hpi
    simp [pidOf] at hpi

/-! ### Preservation of the invariant -/

theorem set_lookup {α : Type} {l : List α} {i j : Nat} {a pc : α}
    (h : (l.set i a)[j]? = some pc) :
    (j = i ∧ pc = a) ∨ (j ≠ i ∧ l[j]? = some pc) := by
  rw [List.getElem?_set] at h
  by_cases hij : i = j
  · rw [if_pos hij] at h
    split at h
    · exact Or.inl ⟨hij.symm, (Option.some.inj h).symm⟩
    · exact absurd h (by simp)
  · rw [if_neg hij] at h
    exact Or.inr ⟨fun hji => hij hji.symm, h⟩

theorem countP_set_shift {α : Type} (p : α → Bool) (l : List α) (i : Nat) (x a : α)
    (h : l[i]? = some x) (cx ca : Nat)
    (hx : (if p x then 1 else 0) = cx) (ha : (if p a then 1 else 0) = ca) :
    (l.set i a).countP p + cx = l.countP p + ca := by
  rw [← hx, ← ha]
  exact countP_set_add p l i x a h

theorem occupied_preserved {n : Nat} {s : StationState} (inv : StationInv n s)
    {i : Nat} {x : PC} (y : PC) (hx : s.threads[i]? = some x)
    (hocc : ∀ p, occupiedPid y = some p → occupiedPid x = some p) :
    ∀ (i' : Nat) (pc : PC) (p : Nat), (s.threads.set i y)[i']? = some pc →
      occupiedPid pc = some p →
      1 ≤ p ∧ p ≤ n ∧ s.ps[p - 1]? = some (occupiedStr p (i' + 1)) := by
  intro i' pc p hpc hp
  rcases set_lookup hpc with ⟨rfl, rfl⟩ | ⟨_, hold⟩
  · exact inv.occupied i' x p hx (hocc p hp)
  · exact inv.occupied i' pc p hold hp

theorem released_preserved {n : Nat} {s : StationState} (inv : StationInv n s)
    {i : Nat} {x : PC} (y : PC) (hx : s.threads[i]? = some x)
    (hrel : ∀ p, releasedPid y = some p → releasedPid x = some p) :
    ∀ (i' : Nat) (pc : PC) (p : Nat), (s.threads.set i y)[i']? = some pc →
      releasedPid pc = some p →
      1 ≤ p ∧ p ≤ n ∧ s.ps[p - 1]? = some (releasedStr p (i' + 1)) := by
  intro i' pc p hpc hp
  rcases set_lookup hpc with ⟨rfl, rfl⟩ | ⟨_, hold⟩
  · exact inv.released i' x p hx (hrel p hp)
  · exact inv.released i' pc p hold hp

theorem distinct_preserved {n : Nat} {s : StationState} (inv : StationInv n s)
    {i : Nat} {x : PC} (y : PC) (hx : s.threads[i]? = some x)
    (hpid : ∀ p, pidOf y = some p → pidOf x = some p) :
    ∀ (i' j' : Nat) (pci pcj : PC) (p : Nat), i' ≠ j' →
      (s.threads.set i y)[i']? = some pci → (s.threads.set i y)[j']? = some pcj →
      pidOf pci = some p → pidOf pcj = some p → False := by
  intro i' j' pci pcj p hne h1 h2 hp1 hp2
  rcases set_lookup h1 with ⟨rfl, rfl⟩ | ⟨hne1, hold1⟩
  · rcases set_lookup h2 with ⟨heq2, rfl⟩ | ⟨hne2, hold2⟩
    · exact hne heq2.symm
    · exact inv.distinct i' j' x pcj p hne hx hold2 (hpid p hp1) hp2
  · rcases set_lookup h2 with ⟨rfl, rfl⟩ | ⟨hne2, hold2⟩
    · exact inv.distinct i' j' pci x p hne hold1 hx hp1 (hpid p hp2)
    · exact inv.distinct i' j' pci pcj p hne hold1 hold2 hp1 hp2

/-- `occupiedPid` refines `pidOf`. -/
theorem pidOf_of_occupiedPid (pc : PC) (p : Nat) (h : occupiedPid pc = some p) :
    pidOf pc = some p := by
  cases pc <;> simp_all [occupiedPid, pidOf]

/-- `releasedPid` refines `pidOf`. -/
theorem pidOf_of_releasedPid (pc : PC) (p : Nat) (h : releasedPid pc = some p) :
    pidOf pc = some p := by
  cases pc <;> simp_all [releasedPid, pidOf]

/-- Every step of any thread preserves the invariant. -/
theorem StationInv_step (n : Nat) {i : Nat} {s s' : StationState}
    (hstep : Step i s s') (inv : StationInv n s) : StationInv n s' := by
  cases hstep with
  | start _ _ h =>
    refine ⟨inv.psLen, ?_, ?_, ?_, ?_, ?_⟩
    · show s.sem + (s.threads.set i PC.arrived).countP holdsSem = n
      have hc := countP_set_shift holdsSem s.threads i PC.notStarted PC.arrived h 0 0 rfl rfl
      have hs := inv.semCount
      omega
    · show (s.threads.set i PC.arrived).countP holdsCashier
        = if s.cashierLocked then 1 else 0
      have hc := countP_set_shift holdsCashier s.threads i PC.notStarted PC.arrived h 0 0 rfl rfl
      rw [show (s.threads.set i PC.arrived).countP holdsCashier
        = s.threads.countP holdsCashier from by omega]
      exact inv.lockCount
    · exact occupied_preserved inv _ h (fun p hp => by simp [occupiedPid] at hp)
    · exact released_preserved inv _ h (fun p hp => by simp [releasedPid] at hp)
    · exact distinct_preserved inv _ h (fun p hp => by simp [pidOf] at hp)
  | acquire _ _ h hsem =>
    refine ⟨inv.psLen, ?_, ?_, ?_, ?_, ?_⟩
    · show s.sem - 1 + (s.threads.set i PC.claiming).countP holdsSem = n
      have hc := countP_set_shift holdsSem s.threads i PC.arrived PC.claiming h 0 1 rfl rfl
      have hs := inv.semCount
      omega
    · show (s.threads.set i PC.claiming).countP holdsCashier
        = if s.cashierLocked then 1 else 0
      have hc := countP_set_shift holdsCashier s.threads i PC.arrived PC.claiming h 0 0 rfl rfl
      rw [show (s.threads.set i PC.claiming).countP holdsCashier
        = s.threads.countP holdsCashier from by omega]
      exact inv.lockCount
    · exact occupied_preserved inv _ h (fun p hp => by simp [occupiedPid] at hp)
    · exact released_preserved inv _ h (fun p hp => by simp [releasedPid] at hp)
    · exact distinct_preserved inv _ h (fun p hp => by simp [pidOf] at hp)
  | claimSome _ _ pid ps' h hc =>
    obtain ⟨hpid1, hpidn, hset, htest⟩ := claimFreeSlot_some (i + 1) s.ps pid ps' hc
    have hpidn' : pid ≤ n := by rw [← inv.psLen]; exact hpidn
    have hlt : pid - 1 < s.ps.length := by omega
    refine ⟨?_, ?_, ?_, ?_, ?_, ?_⟩
    · show ps'.length = n
      rw [hset, List.length_set]
      exact inv.psLen
    · show s.sem + (s.threads.set i (PC.fueling pid)).countP holdsSem = n
      have hcnt := countP_set_shift holdsSem s.threads i PC.claiming (PC.fueling pid) h 1 1 rfl rfl
      have hs := inv.semCount
      omega
    · show (s.threads.set i (PC.fueling pid)).countP holdsCashier
        = if s.cashierLocked then 1 else 0
      have hcnt := countP_set_shift holdsCashier s.threads i PC.claiming (PC.fueling pid) h 0 0 rfl rfl
      rw [show (s.threads.set i (PC.fueling pid)).countP holdsCashier
        = s.threads.countP holdsCashier from by omega]
      exact inv.lockCount
    · -- occupied entries
      intro i' pc p hpc hp
      show 1 ≤ p ∧ p ≤ n ∧ ps'[p - 1]? = some (occupiedStr p (i' + 1))
      rcases set_lookup hpc with ⟨rfl, rfl⟩ | ⟨hne, hold⟩
      · -- thread i itself, now fueling pid
        obtain rfl : pid = p := Option.some.inj hp
        refine ⟨hpid1, hpidn', ?_⟩
        rw [hset]
        exact List.getElem?_set_self hlt
      · -- another thread: the scan wrote a different index
        obtain ⟨hp1, hpn, hentry⟩ := inv.occupied i' pc p hold hp
        have hpne : p - 1 ≠ pid - 1 := by
          intro heq
          have : p = pid := by omega
          subst this
          have := htest _ hentry
          rw [endswith_occupiedStr] at this
          exact Bool.false_ne_true this
        refine ⟨hp1, hpn, ?_⟩
        rw [hset, List.getElem?_set_ne (fun hx => hpne hx.symm)]
        exact hentry
    · -- released entries
      intro i' pc p hpc hp
      show 1 ≤ p ∧ p ≤ n ∧ ps'[p - 1]? = some (releasedStr p (i' + 1))
      rcases set_lookup hpc with ⟨rfl, rfl⟩ | ⟨hne, hold⟩
      · simp [releasedPid] at hp
      · obtain ⟨hp1, hpn, hentry⟩ := inv.released i' pc p hold hp
        have hpne : p - 1 ≠ pid - 1 := by
          intro heq
          have : p = pid := by omega
          subst this
          have := htest _ hentry
          rw [endswith_releasedStr] at this
          exact Bool.false_ne_true this
        refine ⟨hp1, hpn, ?_⟩
        rw [hset, List.getElem?_set_ne (fun hx => hpne hx.symm)]
        exact hentry
    · -- distinct pump indices: pid is fresh
      intro i' j' pci pcj p hne h1 h2 hp1 hp2
      have fresh : ∀ (j : Nat) (pcj : PC), s.threads[j]? = some pcj →
          pidOf pcj = some pid → False := by
        intro j pcj hj hpj
        rcases pidOf_cases pcj pid hpj with hcase | hcase
        · obtain ⟨_, _, hentry⟩ := inv.occupied j pcj pid hj hcase
          have := htest _ hentry
          rw [endswith_occupiedStr] at this
          exact Bool.false_ne_true this
        · obtain ⟨_, _, hentry⟩ := inv.released j pcj pid hj hcase
          have := htest _ hentry
          rw [endswith_releasedStr] at this
          exact Bool.false_ne_true this
      rcases set_lookup h1 with ⟨rfl, rfl⟩ | ⟨hne1, hold1⟩
      · rcases set_lookup h2 with ⟨heq2, rfl⟩ | ⟨hne2, hold2⟩
        · exact hne heq2.symm
        · obtain rfl : pid = p := Option.some.inj hp1
          exact fresh j' pcj hold2 hp2
      · rcases set_lookup h2 with ⟨rfl, rfl⟩ | ⟨hne2, hold2⟩
        · obtain rfl : pid = p := Option.some.inj hp2
          exact fresh i' pci hold1 hp1
        · exact inv.distinct i' j' pci pcj p hne hold1 hold2 hp1 hp2
  | claimNone _ _ h hcnone =>
    refine ⟨inv.psLen, ?_, ?_, ?_, ?_, ?_⟩
    · show s.sem + (s.threads.set i PC.noPump).countP holdsSem = n
      have hcnt := countP_set_shift holdsSem s.threads i PC.claiming PC.noPump h 1 1 rfl rfl
      have hs := inv.semCount
      omega
    · show (s.threads.set i PC.noPump).countP holdsCashier
        = if s.cashierLocked then 1 else 0
      have hcnt := countP_set_shift holdsCashier s.threads i PC.claiming PC.noPump h 0 0 rfl rfl
      rw [show (s.threads.set i PC.noPump).countP holdsCashier
        = s.threads.countP holdsCashier from by omega]
      exact inv.lockCount
    · exact occupied_preserved inv _ h (fun p hp => by simp [occupiedPid] at hp)
    · exact released_preserved inv _ h (fun p hp => by simp [releasedPid] at hp)
    · exact distinct_preserved inv _ h (fun p hp => by simp [pidOf] at hp)
  | finishTank _ _ pid h =>
    refine ⟨inv.psLen, ?_, ?_, ?_, ?_, ?_⟩
    · show s.sem + (s.threads.set i (PC.tanked pid)).countP holdsSem = n
      have hcnt := countP_set_shift holdsSem s.threads i (PC.fueling pid) (PC.tanked pid) h 1 1 rfl rfl
      have hs := inv.semCount
      omega
    · show (s.threads.set i (PC.tanked pid)).countP holdsCashier
        = if s.cashierLocked then 1 else 0
      have hcnt := countP_set_shift holdsCashier s.threads i (PC.fueling pid) (PC.tanked pid) h 0 0 rfl rfl
      rw [show (s.threads.set i (PC.tanked pid)).countP holdsCashier
        = s.threads.countP holdsCashier from by omega]
      exact inv.lockCount
    · exact occupied_preserved inv _ h (fun p hp => hp)
    · exact released_preserved inv _ h (fun p hp => by simp [releasedPid] at hp)
    · exact distinct_preserved inv _ h (fun p hp => hp)
  | releaseRegistry _ _ pid h =>
    obtain ⟨hp1, hpn, hentry⟩ := inv.occupied i (PC.tanked pid) pid h rfl
    have hlt : pid - 1 < s.ps.length := by rw [inv.psLen]; omega
    refine ⟨?_, ?_, ?_, ?_, ?_, ?_⟩
    · show (releaseSlot (i + 1) pid s.ps).length = n
      rw [releaseSlot, List.length_set]
      exact inv.psLen
    · show s.sem + (s.threads.set i (PC.regReleased pid)).countP holdsSem = n
      have hcnt := countP_set_shift holdsSem s.threads i (PC.tanked pid) (PC.regReleased pid) h 1 1 rfl rfl
      have hs := inv.semCount
      omega
    · show (s.threads.set i (PC.regReleased pid)).countP holdsCashier
        = if s.cashierLocked then 1 else 0
      have hcnt := countP_set_shift holdsCashier s.threads i (PC.tanked pid) (PC.regReleased pid) h 0 0 rfl rfl
      rw [show (s.threads.set i (PC.regReleased pid)).countP holdsCashier
        = s.threads.countP holdsCashier from by omega]
      exact inv.lockCount
    · -- occupied entries: only other threads, at distinct indices
      intro i' pc p hpc hp
      show 1 ≤ p ∧ p ≤ n ∧ (releaseSlot (i + 1) pid s.ps)[p - 1]? = some (occupiedStr p (i' + 1))
      rcases set_lookup hpc with ⟨rfl, rfl⟩ | ⟨hne, hold⟩
      · simp [occupiedPid] at hp
      · obtain ⟨hq1, hqn, hqentry⟩ := inv.occupied i' pc p hold hp
        have hpne : p ≠ pid := by
          intro heq
          exact inv.distinct i' i pc (PC.tanked pid) pid hne hold h
            (by rw [← heq]; exact pidOf_of_occupiedPid pc p hp) rfl
        refine ⟨hq1, hqn, ?_⟩
        rw [releaseSlot, List.getElem?_set_ne (fun hx => (by omega : p - 1 ≠ pid - 1) hx.symm)]
        exact hqentry
    · -- released entries: thread i now reads releasedStr; others untouched
      intro i' pc p hpc hp
      show 1 ≤ p ∧ p ≤ n ∧ (releaseSlot (i + 1) pid s.ps)[p - 1]? = some (releasedStr p (i' + 1))
      rcases set_lookup hpc with ⟨rfl, rfl⟩ | ⟨hne, hold⟩
      · obtain rfl : pid = p := Option.some.inj hp
        refine ⟨hp1, hpn, ?_⟩
        rw [releaseSlot]
        exact List.getElem?_set_self hlt
      · obtain ⟨hq1, hqn, hqentry⟩ := inv.released i' pc p hold hp
        have hpne : p ≠ pid := by
          intro heq
          exact inv.distinct i' i pc (PC.tanked pid) pid hne hold h
            (by rw [← heq]; exact pidOf_of_releasedPid pc p hp) rfl
        refine ⟨hq1, hqn, ?_⟩
        rw [releaseSlot, List.getElem?_set_ne (fun hx => (by omega : p - 1 ≠ pid - 1) hx.symm)]
        exact hqentry
    · exact distinct_preserved inv _ h (fun p hp => hp)
  | releaseSem _ _ pid h =>
    refine ⟨inv.psLen, ?_, ?_, ?_, ?_, ?_⟩
    · show s.sem + 1 + (s.threads.set i (PC.awaitingCashier pid)).countP holdsSem = n
      have hcnt := countP_set_shift holdsSem s.threads i (PC.regReleased pid)
        (PC.awaitingCashier pid) h 1 0 rfl rfl
      have hs := inv.semCount
      omega
    · show (s.threads.set i (PC.awaitingCashier pid)).countP holdsCashier
        = if s.cashierLocked then 1 else 0
      have hcnt := countP_set_shift holdsCashier s.threads i (PC.regReleased pid)
        (PC.awaitingCashier pid) h 0 0 rfl rfl
      rw [show (s.threads.set i (PC.awaitingCashier pid)).countP holdsCashier
        = s.threads.countP holdsCashier from by omega]
      exact inv.lockCount
    · exact occupied_preserved inv _ h (fun p hp => by simp [occupiedPid] at hp)
    · exact released_preserved inv _ h (fun p hp => hp)
    · exact distinct_preserved inv _ h (fun p hp => hp)
  | lockCashier _ _ pid h hl =>
    refine ⟨inv.psLen, ?_, ?_, ?_, ?_, ?_⟩
    · show s.sem + (s.threads.set i (PC.lockedCashier pid)).countP holdsSem = n
      have hcnt := countP_set_shift holdsSem s.threads i (PC.awaitingCashier pid)
        (PC.lockedCashier pid) h 0 0 rfl rfl
      have hs := inv.semCount
      omega
    · show (s.threads.set i (PC.lockedCashier pid)).countP holdsCashier
        = if true = true then 1 else 0
      have hcnt := countP_set_shift holdsCashier s.threads i (PC.awaitingCashier pid)
        (PC.lockedCashier pid) h 0 1 rfl rfl
      have hz : s.threads.countP holdsCashier = 0 := by
        have h3 := inv.lockCount
        rw [hl, if_neg (by simp)] at h3
        exact h3
      rw [if_pos rfl]
      omega
    · exact occupied_preserved inv _ h (fun p hp => by simp [occupiedPid] at hp)
    · exact released_preserved inv _ h (fun p hp => hp)
    · exact distinct_preserved inv _ h (fun p hp => hp)
  | setBusy _ _ pid h =>
    refine ⟨inv.psLen, ?_, ?_, ?_, ?_, ?_⟩
    · show s.sem + (s.threads.set i (PC.paying pid)).countP holdsSem = n
      have hcnt := countP_set_shift holdsSem s.threads i (PC.lockedCashier pid)
        (PC.paying pid) h 0 0 rfl rfl
      have hs := inv.semCount
      omega
    · show (s.threads.set i (PC.paying pid)).countP holdsCashier
        = if s.cashierLocked then 1 else 0
      have hcnt := countP_set_shift holdsCashier s.threads i (PC.lockedCashier pid)
        (PC.paying pid) h 1 1 rfl rfl
      rw [show (s.threads.set i (PC.paying pid)).countP holdsCashier
        = s.threads.countP holdsCashier from by omega]
      exact inv.lockCount
    · exact occupied_preserved inv _ h (fun p hp => by simp [occupiedPid] at hp)
    · exact released_preserved inv _ h (fun p hp => hp)
    · exact distinct_preserved inv _ h (fun p hp => hp)
  | clearBusy _ _ pid h =>
    refine ⟨inv.psLen, ?_, ?_, ?_, ?_, ?_⟩
    · show s.sem + (s.threads.set i (PC.payDone pid)).countP holdsSem = n
      have hcnt := countP_set_shift holdsSem s.threads i (PC.paying pid)
        (PC.payDone pid) h 0 0 rfl rfl
      have hs := inv.semCount
      omega
    · show (s.threads.set i (PC.payDone pid)).countP holdsCashier
        = if s.cashierLocked then 1 else 0
      have hcnt := countP_set_shift holdsCashier s.threads i (PC.paying pid)
        (PC.payDone pid) h 1 1 rfl rfl
      rw [show (s.threads.set i (PC.payDone pid)).countP holdsCashier
        = s.threads.countP holdsCashier from by omega]
      exact inv.lockCount
    · exact occupied_preserved inv _ h (fun p hp => by simp [occupiedPid] at hp)
    · exact released_preserved inv _ h (fun p hp => hp)
    · exact distinct_preserved inv _ h (fun p hp => hp)
  | unlockCashier _ _ pid h =>
    have hone : s.threads.countP holdsCashier = 1 := by
      have hpos : 0 < s.threads.countP holdsCashier := by
        rw [List.countP_pos_iff]
        exact ⟨PC.payDone pid, List.getElem?_mem h, rfl⟩
      have h3 := inv.lockCount
      cases hlocked : s.cashierLocked with
      | false => rw [hlocked, if_neg (by simp)] at h3; omega
      | true => rw [hlocked, if_pos rfl] at h3; exact h3
    refine ⟨inv.psLen, ?_, ?_, ?_, ?_, ?_⟩
    · show s.sem + (s.threads.set i (PC.departed pid)).countP holdsSem = n
      have hcnt := countP_set_shift holdsSem s.threads i (PC.payDone pid)
        (PC.departed pid) h 0 0 rfl rfl
      have hs := inv.semCount
      omega
    · show (s.threads.set i (PC.departed pid)).countP holdsCashier
        = if false = true then 1 else 0
      have hcnt := countP_set_shift holdsCashier s.threads i (PC.payDone pid)
        (PC.departed pid) h 1 0 rfl rfl
      rw [if_neg (by simp)]
      omega
    · exact occupied_preserved inv _ h (fun p hp => by simp [occupiedPid] at hp)
    · exact released_preserved inv _ h (fun p hp => hp)
    · exact distinct_preserved inv _ h (fun p hp => hp)
  | errReleaseSem _ _ h =>
    refine ⟨inv.psLen, ?_, ?_, ?_, ?_, ?_⟩
    · show s.sem + 1 + (s.threads.set i PC.errDone).countP holdsSem = n
      have hcnt := countP_set_shift holdsSem s.threads i PC.noPump PC.errDone h 1 0 rfl rfl
      have hs := inv.semCount
      omega
    · show (s.threads.set i PC.errDone).countP holdsCashier
        = if s.cashierLocked then 1 else 0
      have hcnt := countP_set_shift holdsCashier s.threads i PC.noPump PC.errDone h 0 0 rfl rfl
      rw [show (s.threads.set i PC.errDone).countP holdsCashier
        = s.threads.countP holdsCashier from by omega]
      exact inv.lockCount
    · exact occupied_preserved inv _ h (fun p hp => by simp [occupiedPid] at hp)
    · exact released_preserved inv _ h (fun p hp => by simp [releasedPid] at hp)
    · exact distinct_preserved inv _ h (fun p hp => by simp [pidOf] at hp)

/-- The invariant holds in every reachable state. -/
theorem StationInv_reachable (n k : Nat) (s : StationState) (h : Reachable n k s) :
    StationInv n s := by
  induction h with
  | refl => exact StationInv_init n k
  | tail _ hstep ih =>
    obtain ⟨i, hstep⟩ := hstep
    exact StationInv_step n hstep ih

/-! ### A concrete failing run: the error branch is reachable -/

/-- The state of the sequential run with `NUM_PUMPS = 3` after vehicles 1–3
have each tanked and released their pump and vehicle 4 has acquired the
semaphore and found no entry ending in `"Wolny"`. -/
def errorState : StationState :=
  { sem := 2, cashierLocked := false, cashierBusy := false,
    ps := [releasedStr 1 1, releasedStr 2 2, releasedStr 3 3],
    threads := [.awaitingCashier 1, .awaitingCashier 2, .awaitingCashier 3, .noPump],
    log := [LogEvent.arrive 1, LogEvent.tankStart 1 1, LogEvent.tankDone 1, LogEvent.waitCashier 1, LogEvent.arrive 2, LogEvent.tankStart 2 2, LogEvent.tankDone 2, LogEvent.waitCashier 2, LogEvent.arrive 3, LogEvent.tankStart 3 3, LogEvent.tankDone 3, LogEvent.waitCashier 3, LogEvent.arrive 4, LogEvent.claimError 4] }

/-- A sequential run (one vehicle active at a time) reaches `errorState`:
after all three pumps have been used and released once, the fourth vehicle
acquires the semaphore and its claim scan fails. -/
theorem errorState_reachable : Reachable 3 4 errorState := by
  have r0 : Reachable 3 4 (initState 3 4) := Relation.ReflTransGen.refl
  have r1 : Reachable 3 4
    { sem := 3, cashierLocked := false, cashierBusy := false,
      ps := [initialStr 1, initialStr 2, initialStr 3],
      threads := [.arrived, .notStarted, .notStarted, .notStarted],
      log := [LogEvent.arrive 1] } :=
    r0.tail ⟨0, Step.start _ 0 (by decide)⟩
  have r2 : Reachable 3 4
    { sem := 2, cashierLocked := false, cashierBusy := false,
      ps := [initialStr 1, initialStr 2, initialStr 3],
      threads := [.claiming, .notStarted, .notStarted, .notStarted],
      log := [LogEvent.arrive 1] } :=
    r1.tail ⟨0, Step.acquire _ 0 (by decide) (by decide)⟩
  have r3 : Reachable 3 4
    { sem := 2, cashierLocked := false, cashierBusy := false,
      ps := [occupiedStr 1 1, initialStr 2, initialStr 3],
      threads := [.fueling 1, .notStarted, .notStarted, .notStarted],
      log := [LogEvent.arrive 1, LogEvent.tankStart 1 1] } :=
    r2.tail ⟨0, Step.claimSome _ 0 1 [occupiedStr 1 1, initialStr 2, initialStr 3] (by decide) (by decide)⟩
  have r4 : Reachable 3 4
    { sem := 2, cashierLocked := false, cashierBusy := false,
      ps := [occupiedStr 1 1, initialStr 2, initialStr 3],
      threads := [.tanked 1, .notStarted, .notStarted, .notStarted],
      log := [LogEvent.arrive 1, LogEvent.tankStart 1 1, LogEvent.tankDone 1] } :=
    r3.tail ⟨0, Step.finishTank _ 0 1 (by decide)⟩
  have r5 : Reachable 3 4
    { sem := 2, cashierLocked := false, cashierBusy := false,
      ps := [releasedStr 1 1, initialStr 2, initialStr 3],
      threads := [.regReleased 1, .notStarted, .notStarted, .notStarted],
      log := [LogEvent.arrive 1, LogEvent.tankStart 1 1, LogEvent.tankDone 1] } :=
    r4.tail ⟨0, Step.releaseRegistry _ 0 1 (by decide)⟩
  have r6 : Reachable 3 4
    { sem := 3, cashierLocked := false, cashierBusy := false,
      ps := [releasedStr 1 1, initialStr 2, initialStr 3],
      threads := [.awaitingCashier 1, .notStarted, .notStarted, .notStarted],
      log := [LogEvent.arrive 1, LogEvent.tankStart 1 1, LogEvent.tankDone 1, LogEvent.waitCashier 1] } :=
    r5.tail ⟨0, Step.releaseSem _ 0 1 (by decide)⟩
  have r7 : Reachable 3 4
    { sem := 3, cashierLocked := false, cashierBusy := false,
      ps := [releasedStr 1 1, initialStr 2, initialStr 3],
      threads := [.awaitingCashier 1, .arrived, .notStarted, .notStarted],
      log := [LogEvent.arrive 1, LogEvent.tankStart 1 1, LogEvent.tankDone 1, LogEvent.waitCashier 1, LogEvent.arrive 2] } :=
    r6.tail ⟨1, Step.start _ 1 (by decide)⟩
  have r8 : Reachable 3 4
    { sem := 2, cashierLocked := false, cashierBusy := false,
      ps := [releasedStr 1 1, initialStr 2, initialStr 3],
      threads := [.awaitingCashier 1, .claiming, .notStarted, .notStarted],
      log := [LogEvent.arrive 1, LogEvent.tankStart 1 1, LogEvent.tankDone 1, LogEvent.waitCashier 1, LogEvent.arrive 2] } :=
    r7.tail ⟨1, Step.acquire _ 1 (by decide) (by decide)⟩
  have r9 : Reachable 3 4
    { sem := 2, cashierLocked := false, cashierBusy := false,
      ps := [releasedStr 1 1, occupiedStr 2 2, initialStr 3],
      threads := [.awaitingCashier 1, .fueling 2, .notStarted, .notStarted],
      log := [LogEvent.arrive 1, LogEvent.tankStart 1 1, LogEvent.tankDone 1, LogEvent.waitCashier 1, LogEvent.arrive 2, LogEvent.tankStart 2 2] } :=
    r8.tail ⟨1, Step.claimSome _ 1 2 [releasedStr 1 1, occupiedStr 2 2, initialStr 3] (by decide) (by decide)⟩
  have r10 : Reachable 3 4
    { sem := 2, cashierLocked := false, cashierBusy := false,
      ps := [releasedStr 1 1, occupiedStr 2 2, initialStr 3],
      threads := [.awaitingCashier 1, .tanked 2, .notStarted, .notStarted],
      log := [LogEvent.arrive 1, LogEvent.tankStart 1 1, LogEvent.tankDone 1, LogEvent.waitCashier 1, LogEvent.arrive 2, LogEvent.tankStart 2 2, LogEvent.tankDone 2] } :=
    r9.tail ⟨1, Step.finishTank _ 1 2 (by decide)⟩
  have r11 : Reachable 3 4
    { sem := 2, cashierLocked := false, cashierBusy := false,
      ps := [releasedStr 1 1, releasedStr 2 2, initialStr 3],
      threads := [.awaitingCashier 1, .regReleased 2, .notStarted, .notStarted],
      log := [LogEvent.arrive 1, LogEvent.tankStart 1 1, LogEvent.tankDone 1, LogEvent.waitCashier 1, LogEvent.arrive 2, LogEvent.tankStart 2 2, LogEvent.tankDone 2] } :=
    r10.tail ⟨1, Step.releaseRegistry _ 1 2 (by decide)⟩
  have r12 : Reachable 3 4
    { sem := 3, cashierLocked := false, cashierBusy := false,
      ps := [releasedStr 1 1, releasedStr 2 2, initialStr 3],
      threads := [.awaitingCashier 1, .awaitingCashier 2, .notStarted, .notStarted],
      log := [LogEvent.arrive 1, LogEvent.tankStart 1 1, LogEvent.tankDone 1, LogEvent.waitCashier 1, LogEvent.arrive 2, LogEvent.tankStart 2 2, LogEvent.tankDone 2, LogEvent.waitCashier 2] } :=
    r11.tail ⟨1, Step.releaseSem _ 1 2 (by decide)⟩
  have r13 : Reachable 3 4
    { sem := 3, cashierLocked := false, cashierBusy := false,
      ps := [releasedStr 1 1, releasedStr 2 2, initialStr 3],
      threads := [.awaitingCashier 1, .awaitingCashier 2, .arrived, .notStarted],
      log := [LogEvent.arrive 1, LogEvent.tankStart 1 1, LogEvent.tankDone 1, LogEvent.waitCashier 1, LogEvent.arrive 2, LogEvent.tankStart 2 2, LogEvent.tankDone 2, LogEvent.waitCashier 2, LogEvent.arrive 3] } :=
    r12.tail ⟨2, Step.start _ 2 (by decide)⟩
  have r14 : Reachable 3 4
    { sem := 2, cashierLocked := false, cashierBusy := false,
      ps := [releasedStr 1 1, releasedStr 2 2, initialStr 3],
      threads := [.awaitingCashier 1, .awaitingCashier 2, .claiming, .notStarted],
      log := [LogEvent.arrive 1, LogEvent.tankStart 1 1, LogEvent.tankDone 1, LogEvent.waitCashier 1, LogEvent.arrive 2, LogEvent.tankStart 2 2, LogEvent.tankDone 2, LogEvent.waitCashier 2, LogEvent.arrive 3] } :=
    r13.tail ⟨2, Step.acquire _ 2 (by decide) (by decide)⟩
  have r15 : Reachable 3 4
    { sem := 2, cashierLocked := false, cashierBusy := false,
      ps := [releasedStr 1 1, releasedStr 2 2, occupiedStr 3 3],
      threads := [.awaitingCashier 1, .awaitingCashier 2, .fueling 3, .notStarted],
      log := [LogEvent.arrive 1, LogEvent.tankStart 1 1, LogEvent.tankDone 1, LogEvent.waitCashier 1, LogEvent.arrive 2, LogEvent.tankStart 2 2, LogEvent.tankDone 2, LogEvent.waitCashier 2, LogEvent.arrive 3, LogEvent.tankStart 3 3] } :=
    r14.tail ⟨2, Step.claimSome _ 2 3 [releasedStr 1 1, releasedStr 2 2, occupiedStr 3 3] (by decide) (by decide)⟩
  have r16 : Reachable 3 4
    { sem := 2, cashierLocked := false, cashierBusy := false,
      ps := [releasedStr 1 1, releasedStr 2 2, occupiedStr 3 3],
      threads := [.awaitingCashier 1, .awaitingCashier 2, .tanked 3, .notStarted],
      log := [LogEvent.arrive 1, LogEvent.tankStart 1 1, LogEvent.tankDone 1, LogEvent.waitCashier 1, LogEvent.arrive 2, LogEvent.tankStart 2 2, LogEvent.tankDone 2, LogEvent.waitCashier 2, LogEvent.arrive 3, LogEvent.tankStart 3 3, LogEvent.tankDone 3] } :=
    r15.tail ⟨2, Step.finishTank _ 2 3 (by decide)⟩
  have r17 : Reachable 3 4
    { sem := 2, cashierLocked := false, cashierBusy := false,
      ps := [releasedStr 1 1, releasedStr 2 2, releasedStr 3 3],
      threads := [.awaitingCashier 1, .awaitingCashier 2, .regReleased 3, .notStarted],
      log := [LogEvent.arrive 1, LogEvent.tankStart 1 1, LogEvent.tankDone 1, LogEvent.waitCashier 1, LogEvent.arrive 2, LogEvent.tankStart 2 2, LogEvent.tankDone 2, LogEvent.waitCashier 2, LogEvent.arrive 3, LogEvent.tankStart 3 3, LogEvent.tankDone 3] } :=
    r16.tail ⟨2, Step.releaseRegistry _ 2 3 (by decide)⟩
  have r18 : Reachable 3 4
    { sem := 3, cashierLocked := false, cashierBusy := false,
      ps := [releasedStr 1 1, releasedStr 2 2, releasedStr 3 3],
      threads := [.awaitingCashier 1, .awaitingCashier 2, .awaitingCashier 3, .notStarted],
      log := [LogEvent.arrive 1, LogEvent.tankStart 1 1, LogEvent.tankDone 1, LogEvent.waitCashier 1, LogEvent.arrive 2, LogEvent.tankStart 2 2, LogEvent.tankDone 2, LogEvent.waitCashier 2, LogEvent.arrive 3, LogEvent.tankStart 3 3, LogEvent.tankDone 3, LogEvent.waitCashier 3] } :=
    r17.tail ⟨2, Step.releaseSem _ 2 3 (by decide)⟩
  have r19 : Reachable 3 4
    { sem := 3, cashierLocked := false, cashierBusy := false,
      ps := [releasedStr 1 1, releasedStr 2 2, releasedStr 3 3],
      threads := [.awaitingCashier 1, .awaitingCashier 2, .awaitingCashier 3, .arrived],
      log := [LogEvent.arrive 1, LogEvent.tankStart 1 1, LogEvent.tankDone 1, LogEvent.waitCashier 1, LogEvent.arrive 2, LogEvent.tankStart 2 2, LogEvent.tankDone 2, LogEvent.waitCashier 2, LogEvent.arrive 3, LogEvent.tankStart 3 3, LogEvent.tankDone 3, LogEvent.waitCashier 3, LogEvent.arrive 4] } :=
    r18.tail ⟨3, Step.start _ 3 (by decide)⟩
  have r20 : Reachable 3 4
    { sem := 2, cashierLocked := false, cashierBusy := false,
      ps := [releasedStr 1 1, releasedStr 2 2, releasedStr 3 3],
      threads := [.awaitingCashier 1, .awaitingCashier 2, .awaitingCashier 3, .claiming],
      log := [LogEvent.arrive 1, LogEvent.tankStart 1 1, LogEvent.tankDone 1, LogEvent.waitCashier 1, LogEvent.arrive 2, LogEvent.tankStart 2 2, LogEvent.tankDone 2, LogEvent.waitCashier 2, LogEvent.arrive 3, LogEvent.tankStart 3 3, LogEvent.tankDone 3, LogEvent.waitCashier 3, LogEvent.arrive 4] } :=
    r19.tail ⟨3, Step.acquire _ 3 (by decide) (by decide)⟩
  exact r20.tail ⟨3, Step.claimNone _ 3 (by decide) (by decide)⟩

/-! ### Derived run facts -/

/-- Phases of a thread after it has returned its pool slot on the success
path (`PUMPS_SEMAPHORE.release()`, line 91). -/
def pastSemRelease : PC → Option Nat
  | .awaitingCashier p | .lockedCashier p | .paying p
  | .payDone p | .departed p => some p
  | _ => none

theorem releasedPid_of_pastSemRelease (pc : PC) (p : Nat)
    (h : pastSemRelease pc = some p) : releasedPid pc = some p := by
  cases pc <;> simp_all [pastSemRelease, releasedPid]

/-- Whenever a thread sits in the no-pump error branch (or has finished it),
the error line for its vehicle has been printed. -/
theorem claimError_logged (n k : Nat) (s : StationState) (h : Reachable n k s) :
    ∀ i : Nat, (s.threads[i]? = some PC.noPump ∨ s.threads[i]? = some PC.errDone) →
      LogEvent.claimError (i + 1) ∈ s.log := by
  induction h with
  | refl =>
    intro i hi
    rcases hi with hi | hi <;>
    · rw [show (initState n k).threads = List.replicate k PC.notStarted from rfl,
        List.getElem?_replicate] at hi
      split at hi
      · exact absurd (Option.some.inj hi) (by simp)
      · exact absurd hi (by simp)
  | tail hrtg hstep ih =>
    obtain ⟨j, hstep⟩ := hstep
    intro i hi
    cases hstep with
    | start _ _ h =>
      rcases hi with hi | hi <;> rcases set_lookup hi with ⟨h1, heq⟩ | ⟨hne, hold⟩ <;>
        first
          | exact PC.noConfusion heq
          | exact List.mem_append_left _ (ih i (Or.inl hold))
          | exact List.mem_append_left _ (ih i (Or.inr hold))
          | exact ih i (Or.inl hold)
          | exact ih i (Or.inr hold)
          | exact List.mem_append_right _ (by rw [h1]; simp)
          | exact ih i (Or.inl (by rw [h1]; exact h))
    | acquire _ _ h hsem =>
      rcases hi with hi | hi <;> rcases set_lookup hi with ⟨h1, heq⟩ | ⟨hne, hold⟩ <;>
        first
          | exact PC.noConfusion heq
          | exact List.mem_append_left _ (ih i (Or.inl hold))
          | exact List.mem_append_left _ (ih i (Or.inr hold))
          | exact ih i (Or.inl hold)
          | exact ih i (Or.inr hold)
          | exact List.mem_append_right _ (by rw [h1]; simp)
          | exact ih i (Or.inl (by rw [h1]; exact h))
    | claimSome _ _ pid ps' h hc =>
      rcases hi with hi | hi <;> rcases set_lookup hi with ⟨h1, heq⟩ | ⟨hne, hold⟩ <;>
        first
          | exact PC.noConfusion heq
          | exact List.mem_append_left _ (ih i (Or.inl hold))
          | exact List.mem_append_left _ (ih i (Or.inr hold))
          | exact ih i (Or.inl hold)
          | exact ih i (Or.inr hold)
          | exact List.mem_append_right _ (by rw [h1]; simp)
          | exact ih i (Or.inl (by rw [h1]; exact h))
    | claimNone _ _ h hc =>
      rcases hi with hi | hi <;> rcases set_lookup hi with ⟨h1, heq⟩ | ⟨hne, hold⟩ <;>
        first
          | exact PC.noConfusion heq
          | exact List.mem_append_left _ (ih i (Or.inl hold))
          | exact List.mem_append_left _ (ih i (Or.inr hold))
          | exact ih i (Or.inl hold)
          | exact ih i (Or.inr hold)
          | exact List.mem_append_right _ (by rw [h1]; simp)
          | exact ih i (Or.inl (by rw [h1]; exact h))
    | finishTank _ _ pid h =>
      rcases hi with hi | hi <;> rcases set_lookup hi with ⟨h1, heq⟩ | ⟨hne, hold⟩ <;>
        first
          | exact PC.noConfusion heq
          | exact List.mem_append_left _ (ih i (Or.inl hold))
          | exact List.mem_append_left _ (ih i (Or.inr hold))
          | exact ih i (Or.inl hold)
          | exact ih i (Or.inr hold)
          | exact List.mem_append_right _ (by rw [h1]; simp)
          | exact ih i (Or.inl (by rw [h1]; exact h))
    | releaseRegistry _ _ pid h =>
      rcases hi with hi | hi <;> rcases set_lookup hi with ⟨h1, heq⟩ | ⟨hne, hold⟩ <;>
        first
          | exact PC.noConfusion heq
          | exact List.mem_append_left _ (ih i (Or.inl hold))
          | exact List.mem_append_left _ (ih i (Or.inr hold))
          | exact ih i (Or.inl hold)
          | exact ih i (Or.inr hold)
          | exact List.mem_append_right _ (by rw [h1]; simp)
          | exact ih i (Or.inl (by rw [h1]; exact h))
    | releaseSem _ _ pid h =>
      rcases hi with hi | hi <;> rcases set_lookup hi with ⟨h1, heq⟩ | ⟨hne, hold⟩ <;>
        first
          | exact PC.noConfusion heq
          | exact List.mem_append_left _ (ih i (Or.inl hold))
          | exact List.mem_append_left _ (ih i (Or.inr hold))
          | exact ih i (Or.inl hold)
          | exact ih i (Or.inr hold)
          | exact List.mem_append_right _ (by rw [h1]; simp)
          | exact ih i (Or.inl (by rw [h1]; exact h))
    | lockCashier _ _ pid h hl =>
      rcases hi with hi | hi <;> rcases set_lookup hi with ⟨h1, heq⟩ | ⟨hne, hold⟩ <;>
        first
          | exact PC.noConfusion heq
          | exact List.mem_append_left _ (ih i (Or.inl hold))
          | exact List.mem_append_left _ (ih i (Or.inr hold))
          | exact ih i (Or.inl hold)
          | exact ih i (Or.inr hold)
          | exact List.mem_append_right _ (by rw [h1]; simp)
          | exact ih i (Or.inl (by rw [h1]; exact h))
    | setBusy _ _ pid h =>
      rcases hi with hi | hi <;> rcases set_lookup hi with ⟨h1, heq⟩ | ⟨hne, hold⟩ <;>
        first
          | exact PC.noConfusion heq
          | exact List.mem_append_left _ (ih i (Or.inl hold))
          | exact List.mem_append_left _ (ih i (Or.inr hold))
          | exact ih i (Or.inl hold)
          | exact ih i (Or.inr hold)
          | exact List.mem_append_right _ (by rw [h1]; simp)
          | exact ih i (Or.inl (by rw [h1]; exact h))
    | clearBusy _ _ pid h =>
      rcases hi with hi | hi <;> rcases set_lookup hi with ⟨h1, heq⟩ | ⟨hne, hold⟩ <;>
        first
          | exact PC.noConfusion heq
          | exact List.mem_append_left _ (ih i (Or.inl hold))
          | exact List.mem_append_left _ (ih i (Or.inr hold))
          | exact ih i (Or.inl hold)
          | exact ih i (Or.inr hold)
          | exact List.mem_append_right _ (by rw [h1]; simp)
          | exact ih i (Or.inl (by rw [h1]; exact h))
    | unlockCashier _ _ pid h =>
      rcases hi with hi | hi <;> rcases set_lookup hi with ⟨h1, heq⟩ | ⟨hne, hold⟩ <;>
        first
          | exact PC.noConfusion heq
          | exact List.mem_append_left _ (ih i (Or.inl hold))
          | exact List.mem_append_left _ (ih i (Or.inr hold))
          | exact ih i (Or.inl hold)
          | exact ih i (Or.inr hold)
          | exact List.mem_append_right _ (by rw [h1]; simp)
          | exact ih i (Or.inl (by rw [h1]; exact h))
    | errReleaseSem _ _ h =>
      rcases hi with hi | hi <;> rcases set_lookup hi with ⟨h1, heq⟩ | ⟨hne, hold⟩ <;>
        first
          | exact PC.noConfusion heq
          | exact List.mem_append_left _ (ih i (Or.inl hold))
          | exact List.mem_append_left _ (ih i (Or.inr hold))
          | exact ih i (Or.inl hold)
          | exact ih i (Or.inr hold)
          | exact List.mem_append_right _ (by rw [h1]; simp)
          | exact ih i (Or.inl (by rw [h1]; exact h))

/-- A thread that has entered the error branch never leaves `noPump`/`errDone`. -/
theorem noPump_persists_step {i : Nat} {b c : StationState} (hstep : StepAny b c)
    (hb : b.threads[i]? = some PC.noPump ∨ b.threads[i]? = some PC.errDone) :
    c.threads[i]? = some PC.noPump ∨ c.threads[i]? = some PC.errDone := by
  obtain ⟨j, hstep⟩ := hstep
  cases hstep with
  | errReleaseSem _ _ h =>
    rcases eq_or_ne i j with rfl | hne
    · right
      exact List.getElem?_set_self (List.getElem?_eq_some_iff.mp h).1
    · rw [List.getElem?_set_ne hne.symm]
      exact hb
  | start _ _ h =>
    rcases eq_or_ne i j with rfl | hne
    · rcases hb with h3 | h3 <;> exact absurd (h.symm.trans h3) (by simp)
    · rw [List.getElem?_set_ne hne.symm]
      exact hb
  | acquire _ _ h hsem =>
    rcases eq_or_ne i j with rfl | hne
    · rcases hb with h3 | h3 <;> exact absurd (h.symm.trans h3) (by simp)
    · rw [List.getElem?_set_ne hne.symm]
      exact hb
  | claimSome _ _ pid ps' h hc =>
    rcases eq_or_ne i j with rfl | hne
    · rcases hb with h3 | h3 <;> exact absurd (h.symm.trans h3) (by simp)
    · rw [List.getElem?_set_ne hne.symm]
      exact hb
  | claimNone _ _ h hc =>
    rcases eq_or_ne i j with rfl | hne
    · rcases hb with h3 | h3 <;> exact absurd (h.symm.trans h3) (by simp)
    · rw [List.getElem?_set_ne hne.symm]
      exact hb
  | finishTank _ _ pid h =>
    rcases eq_or_ne i j with rfl | hne
    · rcases hb with h3 | h3 <;> exact absurd (h.symm.trans h3) (by simp)
    · rw [List.getElem?_set_ne hne.symm]
      exact hb
  | releaseRegistry _ _ pid h =>
    rcases eq_or_ne i j with rfl | hne
    · rcases hb with h3 | h3 <;> exact absurd (h.symm.trans h3) (by simp)
    · rw [List.getElem?_set_ne hne.symm]
      exact hb
  | releaseSem _ _ pid h =>
    rcases eq_or_ne i j with rfl | hne
    · rcases hb with h3 | h3 <;> exact absurd (h.symm.trans h3) (by simp)
    · rw [List.getElem?_set_ne hne.symm]
      exact hb
  | lockCashier _ _ pid h hl =>
    rcases eq_or_ne i j with rfl | hne
    · rcases hb with h3 | h3 <;> exact absurd (h.symm.trans h3) (by simp)
    · rw [List.getElem?_set_ne hne.symm]
      exact hb
  | setBusy _ _ pid h =>
    rcases eq_or_ne i j with rfl | hne
    · rcases hb with h3 | h3 <;> exact absurd (h.symm.trans h3) (by simp)
    · rw [List.getElem?_set_ne hne.symm]
      exact hb
  | clearBusy _ _ pid h =>
    rcases eq_or_ne i j with rfl | hne
    · rcases hb with h3 | h3 <;> exact absurd (h.symm.trans h3) (by simp)
    · rw [List.getElem?_set_ne hne.symm]
      exact hb
  | unlockCashier _ _ pid h =>
    rcases eq_or_ne i j with rfl | hne
    · rcases hb with h3 | h3 <;> exact absurd (h.symm.trans h3) (by simp)
    · rw [List.getElem?_set_ne hne.symm]
      exact hb

theorem noPump_persists (i : Nat) {s s' : StationState}
    (hrtg : Relation.ReflTransGen StepAny s s')
    (hb : s.threads[i]? = some PC.noPump ∨ s.threads[i]? = some PC.errDone) :
    s'.threads[i]? = some PC.noPump ∨ s'.threads[i]? = some PC.errDone := by
  induction hrtg with
  | refl => exact hb
  | tail _ hstep ih => exact noPump_persists_step hstep ih

/-! ## The claims -/

/-- C1 (refuted by the code — the code contradicts its own "should not
happen" comment on the error branch): in the sequential four-vehicle run on
three pumps, during which at most one pool slot is ever held (well within the
`pumpCount` bound), vehicle 4's `acquire()` succeeds and the subsequent claim
scan finds no entry ending in `"Wolny"` — every entry carries the
`"... Wolny (zwolniony przez V...)"` release string — so the
no-free-entry error branch of `Vehicle.run` is reached and the error line is
printed. -/
theorem C1_error_branch_reached :
    Reachable 3 4 errorState ∧
    errorState.threads[3]? = some PC.noPump ∧
    LogEvent.claimError 4 ∈ errorState.log ∧
    errorState.threads.countP holdsSem = 1 ∧
    claimFreeSlot 4 errorState.ps = none :=
  ⟨errorState_reachable, by decide, by decide, by decide, by decide⟩

/-- C2: `claimFreeSlot(vehicleId)` scans the entries in fixed ascending index
order, transitions the first entry in the Free state (the scan's test:
`endswith("Wolny")`) to the Occupied(vehicleId) status and returns its 1-based
index; if no entry is Free it returns none — and in that case the registry is
left unchanged, since the scan writes nothing. -/
theorem C2_claimFreeSlot_contract (vid : Nat) (ps : List String) :
    (claimFreeSlot vid ps = none ↔ ∀ s ∈ ps, str_endswith s "Wolny" = false) ∧
    (∀ (pid : Nat) (ps' : List String), claimFreeSlot vid ps = some (pid, ps') →
      ∃ j, j < ps.length ∧ pid = j + 1 ∧
        (∀ s, ps[j]? = some s → str_endswith s "Wolny" = true) ∧
        (∀ i, i < j → ∀ s, ps[i]? = some s → str_endswith s "Wolny" = false) ∧
        ps' = ps.set j (occupiedStr (j + 1) vid)) := by
  constructor
  · exact claimFreeSlotAux_none_iff vid 0 ps
  · intro pid ps' h
    obtain ⟨j, hj, hpid, hbefore, hat, hset⟩ := claimFreeSlotAux_some vid 0 ps pid ps' h
    refine ⟨j, hj, by omega, ?_, ?_, ?_⟩
    · intro s0 hs0
      exact hat s0 (by rw [List.get?_eq_getElem?]; exact hs0)
    · intro i hi s0 hs0
      exact hbefore i hi s0 (by rw [List.get?_eq_getElem?]; exact hs0)
    · rw [hset]
      simp

/-- Witness for C2 at a concrete registry: entry 1 is a released string (not
Free per the scan's test), entry 2 is Free; the scan claims index 2. -/
theorem C2_claimFreeSlot_contract_witness :
    ∃ j, j < 2 ∧ 2 = j + 1 ∧
      (∀ s, [releasedStr 1 3, initialStr 2][j]? = some s →
        str_endswith s "Wolny" = true) ∧
      (∀ i, i < j → ∀ s, [releasedStr 1 3, initialStr 2][i]? = some s →
        str_endswith s "Wolny" = false) ∧
      [releasedStr 1 3, occupiedStr 2 7]
        = [releasedStr 1 3, initialStr 2].set j (occupiedStr (j + 1) 7) :=
  (C2_claimFreeSlot_contract 7 [releasedStr 1 3, initialStr 2]).2
    2 [releasedStr 1 3, occupiedStr 2 7] (by decide)

/-- C3: at every instant of every run, at most one vehicle thread is in the
Paying state; more generally at most one thread is inside the
`with CASHIER_LOCK` critical section. -/
theorem C3_at_most_one_paying (n k : Nat) (s : StationState) (h : Reachable n k s) :
    s.threads.countP isPaying ≤ 1 ∧ s.threads.countP holdsCashier ≤ 1 := by
  have inv := StationInv_reachable n k s h
  have hc : s.threads.countP holdsCashier ≤ 1 := by
    have hl := inv.lockCount
    cases hcl : s.cashierLocked
    · rw [hcl, if_neg (by simp)] at hl
      omega
    · rw [hcl, if_pos rfl] at hl
      omega
  refine ⟨le_trans (List.countP_mono_left ?_) hc, hc⟩
  intro pc _ hpc
  cases pc <;> simp_all [isPaying, holdsCashier]

/-- Witness for C3 at the reachable state `errorState`. -/
theorem C3_at_most_one_paying_witness :
    errorState.threads.countP isPaying ≤ 1 ∧
      errorState.threads.countP holdsCashier ≤ 1 :=
  C3_at_most_one_paying 3 4 errorState errorState_reachable

/-- C4: at every instant of every run with `n` pumps, the number of threads in
the Fueling state is at most `n`; more generally the number of semaphore
holders is at most `n` — `acquire()` never oversubscribes. -/
theorem C4_fueling_bounded_by_pumpCount (n k : Nat) (s : StationState)
    (h : Reachable n k s) :
    s.threads.countP isFueling ≤ n ∧ s.threads.countP holdsSem ≤ n := by
  have inv := StationInv_reachable n k s h
  have hsem : s.threads.countP holdsSem ≤ n := by
    have := inv.semCount
    omega
  refine ⟨le_trans (List.countP_mono_left ?_) hsem, hsem⟩
  intro pc _ hpc
  cases pc <;> simp_all [isFueling, holdsSem]

/-- Witness for C4 at the reachable state `errorState`. -/
theorem C4_fueling_bounded_by_pumpCount_witness :
    errorState.threads.countP isFueling ≤ 3 ∧
      errorState.threads.countP holdsSem ≤ 3 :=
  C4_fueling_bounded_by_pumpCount 3 4 errorState errorState_reachable

/-- C5: the arrival ids assigned by the supervisor loop form exactly the list
`1, 2, …, m` for some `m ≤ maxVehicles`: 1-based, strictly increasing, all
distinct (never reused), with exactly one id per spawned vehicle — the id list
is the spawn list itself. -/
theorem C5_arrival_ids (maxVehicles : Nat) (running : Nat → Bool) :
    ∃ m, m ≤ maxVehicles ∧
      spawnIds maxVehicles running = List.range' 1 m ∧
      (spawnIds maxVehicles running).Nodup ∧
      List.Chain' (· < ·) (spawnIds maxVehicles running) ∧
      ∀ id ∈ spawnIds maxVehicles running, 1 ≤ id ∧ id ≤ maxVehicles := by
  obtain ⟨m, hm, heq⟩ := spawnLoop_range' maxVehicles running maxVehicles 0 (by omega)
  have heq' : spawnIds maxVehicles running = List.range' 1 m := heq
  refine ⟨m, by omega, heq', ?_, ?_, ?_⟩
  · rw [heq']
    exact List.nodup_range' 1 m
  · rw [heq']
    exact (List.pairwise_lt_range' 1 m).chain'
  · intro id hid
    rw [heq'] at hid
    obtain ⟨i, hi, rfl⟩ := List.mem_range'.mp hid
    omega

/-- Witness for C5 at a concrete configuration. -/
theorem C5_arrival_ids_witness :
    ∃ m, m ≤ 2 ∧ spawnIds 2 (fun _ => true) = List.range' 1 m ∧
      (spawnIds 2 (fun _ => true)).Nodup ∧
      List.Chain' (· < ·) (spawnIds 2 (fun _ => true)) ∧
      ∀ id ∈ spawnIds 2 (fun _ => true), 1 ≤ id ∧ id ≤ 2 :=
  C5_arrival_ids 2 (fun _ => true)

/-- C6: the registry slot is released strictly before the pool slot is
returned (`pump_status[...] = "... Wolny (zwolniony ...)"` on line 89 precedes
`PUMPS_SEMAPHORE.release()` on line 91), so in every reachable state a thread
that has returned its pool capacity has its claimed entry already carrying the
released status string — the entry never still shows Occupied. -/
theorem C6_release_order (n k : Nat) (s : StationState) (h : Reachable n k s)
    (i p : Nat) (pc : PC) (hpc : s.threads[i]? = some pc)
    (hpast : pastSemRelease pc = some p) :
    s.ps[p - 1]? = some (releasedStr p (i + 1)) ∧
      ∀ q w, s.ps[p - 1]? ≠ some (occupiedStr q w) := by
  have inv := StationInv_reachable n k s h
  obtain ⟨h1, h2, hentry⟩ :=
    inv.released i pc p hpc (releasedPid_of_pastSemRelease pc p hpast)
  refine ⟨hentry, ?_⟩
  intro q w hcon
  rw [hentry] at hcon
  exact releasedStr_ne_occupiedStr p (i + 1) q w (Option.some.inj hcon)

/-- Witness for C6: in `errorState`, thread 0 (vehicle 1) has returned its
pool slot and its pump-1 entry reads the released string, not Occupied. -/
theorem C6_release_order_witness :
    errorState.ps[0]? = some (releasedStr 1 1) ∧
      ∀ q w, errorState.ps[0]? ≠ some (occupiedStr q w) :=
  C6_release_order 3 4 errorState errorState_reachable 0 1
    (PC.awaitingCashier 1) (by decide) rfl

/-- C7: a thread in the no-pump error branch has reported the error (the
error line is in the log, not swallowed); its only possible step returns the
slot to the pool (`sem + 1`), terminates it (`errDone`) and leaves every other
thread, the registry and the log untouched; and in every later state it is
still only `noPump`/`errDone` — it never fuels or pays, and only that actor is
aborted. -/
theorem C7_claim_failure_aborts_only_actor (n k : Nat) (s : StationState)
    (h : Reachable n k s) (i : Nat) (hi : s.threads[i]? = some PC.noPump) :
    LogEvent.claimError (i + 1) ∈ s.log ∧
    (∀ s', Step i s s' →
      s'.sem = s.sem + 1 ∧ s'.threads[i]? = some PC.errDone ∧ s'.ps = s.ps ∧
        s'.log = s.log ∧ ∀ j, j ≠ i → s'.threads[j]? = s.threads[j]?) ∧
    (∀ s', Relation.ReflTransGen StepAny s s' →
      s'.threads[i]? = some PC.noPump ∨ s'.threads[i]? = some PC.errDone) := by
  refine ⟨claimError_logged n k s h i (Or.inl hi), ?_, ?_⟩
  · intro s' hstep
    cases hstep with
    | start _ _ h2 => exact absurd (h2.symm.trans hi) (by simp)
    | acquire _ _ h2 hsem => exact absurd (h2.symm.trans hi) (by simp)
    | claimSome _ _ pid ps' h2 hc => exact absurd (h2.symm.trans hi) (by simp)
    | claimNone _ _ h2 hc => exact absurd (h2.symm.trans hi) (by simp)
    | finishTank _ _ pid h2 => exact absurd (h2.symm.trans hi) (by simp)
    | releaseRegistry _ _ pid h2 => exact absurd (h2.symm.trans hi) (by simp)
    | releaseSem _ _ pid h2 => exact absurd (h2.symm.trans hi) (by simp)
    | lockCashier _ _ pid h2 hl => exact absurd (h2.symm.trans hi) (by simp)
    | setBusy _ _ pid h2 => exact absurd (h2.symm.trans hi) (by simp)
    | clearBusy _ _ pid h2 => exact absurd (h2.symm.trans hi) (by simp)
    | unlockCashier _ _ pid h2 => exact absurd (h2.symm.trans hi) (by simp)
    | errReleaseSem _ _ h2 =>
      refine ⟨rfl, ?_, rfl, rfl, ?_⟩
      · exact List.getElem?_set_self (List.getElem?_eq_some_iff.mp hi).1
      · intro j hj
        exact List.getElem?_set_ne (fun hx => hj hx.symm)
  · intro s' hrtg
    exact noPump_persists i hrtg (Or.inl hi)

/-- Witness for C7 at `errorState`, whose thread 3 (vehicle 4) sits in the
error branch. -/
theorem C7_claim_failure_aborts_only_actor_witness :
    LogEvent.claimError 4 ∈ errorState.log ∧
    (∀ s', Step 3 errorState s' →
      s'.sem = errorState.sem + 1 ∧ s'.threads[3]? = some PC.errDone ∧
        s'.ps = errorState.ps ∧ s'.log = errorState.log ∧
        ∀ j, j ≠ 3 → s'.threads[j]? = errorState.threads[j]?) ∧
    (∀ s', Relation.ReflTransGen StepAny errorState s' →
      s'.threads[3]? = some PC.noPump ∨ s'.threads[3]? = some PC.errDone) :=
  C7_claim_failure_aborts_only_actor 3 4 errorState errorState_reachable 3 (by decide)

/-- C8 counterexample: a configuration with pump count 0 (non-positive) is
not rejected: `start_simulation` starts the run with the value clamped to 1 —
there is no `ConfigurationError` path in the code. -/
theorem C8_zero_pumps_not_rejected :
    start_simulation 0 10 = StartResult.started 1 10 ∧
      start_simulation 0 10 ≠ StartResult.rejected := by
  exact ⟨by decide, by decide⟩

/-- C8 as amended: a non-positive pump count or vehicle maximum is never
rejected; `start_simulation` clamps both inputs with `max(1, ·)` before the
run starts, so every run starts with `pumpCount ≥ 1` and `maxVehicles ≥ 1`. -/
theorem C8_config_clamped (pumps maxVehicles : Int) :
    ∃ np mv : Nat, start_simulation pumps maxVehicles = StartResult.started np mv ∧
      1 ≤ np ∧ 1 ≤ mv := by
  refine ⟨(max 1 pumps).toNat, (max 1 maxVehicles).toNat, rfl, ?_, ?_⟩
  · have := le_max_left (1 : Int) pumps
    omega
  · have := le_max_left (1 : Int) maxVehicles
    omega

/-- C9: with a stop request observed from loop check `T` on, the supervisor
spawns exactly `min T maxVehicles` vehicles — none after the stop is observed
— and the manager's event sequence joins every spawned vehicle before the
final completion event; running actors are never interrupted (the manager has
no interrupting action, only `join`). -/
theorem C9_stop_semantics (maxVehicles T : Nat) (running : Nat → Bool)
    (hT : ∀ j, running j = decide (j < T)) :
    (spawnIds maxVehicles running).length = min T maxVehicles ∧
    ∃ pre, managerEvents maxVehicles running = pre ++ [MEvent.completeLog] ∧
      ∀ id ∈ spawnIds maxVehicles running, MEvent.joined id ∈ pre := by
  have hspawn := spawnLoop_stopAt maxVehicles T running hT maxVehicles 0 (by omega)
  constructor
  · show (spawnLoop maxVehicles running 0).length = min T maxVehicles
    rw [hspawn]
    simp
  · refine ⟨((spawnIds maxVehicles running).map
        (fun id => [MEvent.spawn id, MEvent.statusDisplay])).flatten
      ++ [MEvent.stopLog] ++ (spawnIds maxVehicles running).map MEvent.joined, rfl, ?_⟩
    intro id hid
    exact List.mem_append_right _ (List.mem_map_of_mem MEvent.joined hid)

/-- Witness for C9: stop observed at the check before the second spawn, with
room for three vehicles: exactly one vehicle is spawned and it is joined
before completion is declared. -/
theorem C9_stop_semantics_witness :
    (spawnIds 3 (fun j => decide (j < 1))).length = min 1 3 ∧
    ∃ pre, managerEvents 3 (fun j => decide (j < 1)) = pre ++ [MEvent.completeLog] ∧
      ∀ id ∈ spawnIds 3 (fun j => decide (j < 1)), MEvent.joined id ∈ pre :=
  C9_stop_semantics 3 1 (fun j => decide (j < 1)) (fun j => rfl)

/-- C10: a released entry (the `"... Wolny (zwolniony przez V...)"` string)
no longer satisfies the scan's Free test, while the initial `"D{n}: Wolny"`
entries do; consequently a pump index whose entry holds a release string is
never returned by any subsequent `claimFreeSlot` scan. -/
theorem C10_released_never_reclaimable :
    (∀ pid vid, str_endswith (releasedStr pid vid) "Wolny" = false) ∧
    (∀ pid, str_endswith (initialStr pid) "Wolny" = true) ∧
    (∀ (vid : Nat) (ps : List String) (i pid0 vid0 : Nat),
      ps[i]? = some (releasedStr pid0 vid0) →
      ∀ (pid : Nat) (ps' : List String),
        claimFreeSlot vid ps = some (pid, ps') → pid ≠ i + 1) := by
  refine ⟨endswith_releasedStr, endswith_initialStr, ?_⟩
  intro vid ps i pid0 vid0 hE pid ps' hclaim heq
  obtain ⟨h1, h2, hset, htest⟩ := claimFreeSlot_some vid ps pid ps' hclaim
  have hE' : ps[pid - 1]? = some (releasedStr pid0 vid0) := by
    rw [show pid - 1 = i from by omega]
    exact hE
  have := htest _ hE'
  rw [endswith_releasedStr] at this
  exact Bool.false_ne_true this

/-- Witness for C10: with pump 1 released, a later scan claims pump 2, never
pump 1. -/
theorem C10_released_never_reclaimable_witness :
    claimFreeSlot 5 [releasedStr 1 1, initialStr 2]
      = some (2, [releasedStr 1 1, occupiedStr 2 5]) ∧ (2 : Nat) ≠ 0 + 1 := by
  refine ⟨by decide, ?_⟩
  exact C10_released_never_reclaimable.2.2 5 [releasedStr 1 1, initialStr 2] 0 1 1
    (by decide) 2 [releasedStr 1 1, occupiedStr 2 5] (by decide)

end GasStation
